import Mathlib

/-!
Shallow embedding of the bot matchmaking, Elo rating and leaderboard
subsystem of the repository (files `bot_matchmaker.py`,
`src/bot_vs_bot/leaderboard_server.py`).

Modelling conventions: Python floats are embedded as real numbers (`ℝ`)
where the code computes with `10 ** x`, and as rationals (`ℚ`) for
timestamps and durations, where only field arithmetic and order are used;
Python ints are `ℕ`/`ℤ`; `None`-able values are `Option`; dictionaries are
association lists with Python's insert-or-overwrite semantics.
-/

/-- Statistics for a bot in the matchmaking system: dataclass `BotStats`
in `bot_matchmaker.py`. -/
structure BotStats where
  username : String
  elo_rating : ℝ
  wins : ℕ
  losses : ℕ
  draws : ℕ
  total_battles : ℕ
  win_rate : ℚ
  last_battle_time : ℚ

/-- A freshly registered bot: the dataclass defaults of `BotStats`
(rating 1200.0, all counters zero). -/
def BotStats.fresh (username : String) (elo : ℝ) : BotStats :=
  ⟨username, elo, 0, 0, 0, 0, 0, 0⟩

/-- Method `BotStats.update_stats`: increments the battle counters from one
result, records the result timestamp, and recomputes the win rate from
the updated counters. -/
def BotStats.update_stats (s : BotStats) (timestamp : ℚ)
    (is_winner is_draw : Bool) : BotStats :=
  let total := s.total_battles + 1
  let wins := if is_draw then s.wins else if is_winner then s.wins + 1 else s.wins
  let losses := if is_draw then s.losses else if is_winner then s.losses else s.losses + 1
  let draws := if is_draw then s.draws + 1 else s.draws
  let rate := if 0 < total then (wins : ℚ) / (total : ℚ) else s.win_rate
  { s with
    wins := wins
    losses := losses
    draws := draws
    total_battles := total
    win_rate := rate
    last_battle_time := timestamp }

/-- Method `BotStats.update_elo`: standard Elo step
`expected = 1 / (1 + 10 ** ((opponent - self) / 400))`,
`rating += k * (result - expected)`. -/
noncomputable def BotStats.update_elo (s : BotStats) (opponent_elo result : ℝ)
    (k_factor : ℝ) : BotStats :=
  let expected_score : ℝ :=
    1 / (1 + (10 : ℝ) ^ ((opponent_elo - s.elo_rating) / 400))
  { s with elo_rating := s.elo_rating + k_factor * (result - expected_score) }

/-- Result of a bot vs bot battle: dataclass `BattleResult` in
`bot_manager.py`. -/
structure BattleResult where
  battle_id : String
  bot1_username : String
  bot2_username : String
  winner : Option String
  battle_format : String
  duration : ℚ
  turns : ℕ
  battle_log : Option String
  timestamp : ℚ
deriving DecidableEq

/-- A matched pair of bots ready for battle: dataclass `MatchPairing` in
`bot_matchmaker.py` (the wall-clock `created_time` stamp, set from
`time.time()` and never read by the verified operations, is not
modelled). -/
structure MatchPairing where
  bot1_username : String
  bot2_username : String
  battle_format : String
  priority : ℤ
deriving DecidableEq

/-- A request for a battle match: dataclass `MatchRequest` in
`bot_matchmaker.py`. -/
structure MatchRequest where
  bot_username : String
  battle_format : String
  preferred_opponents : List String
  excluded_opponents : List String
  max_wait_time : ℚ
  created_time : ℚ
deriving DecidableEq

/-- Lookup in a Python dict modelled as an association list
(`self.bot_stats.get(name)` / `self.bot_stats[name]`). -/
def lookupStats (m : List (String × BotStats)) (u : String) : Option BotStats :=
  (m.find? (fun p => p.1 == u)).map Prod.snd

/-- Python dict assignment `m[u] = s`: overwrite the entry in place when
the key is present, append it otherwise (keys are unique in a dict, so
replacing the first occurrence is exact). -/
def assocSet : List (String × BotStats) → String → BotStats → List (String × BotStats)
  | [], u, s => [(u, s)]
  | (k, v) :: rest, u, s =>
    if k == u then (u, s) :: rest else (k, v) :: assocSet rest u s

/-- Mutable matchmaking state of `BotMatchmaker` (the fields read or
written by the verified operations). -/
structure MatchmakerState where
  bot_stats : List (String × BotStats)
  match_queue : List MatchRequest
  active_matches : List (String × MatchPairing)
  match_history : List (String × String)
  pairing_queue : List MatchPairing

/-- Method `BotMatchmaker.update_battle_result`: look up both participants'
stats (early return leaving the state untouched when either is missing),
update counters for both, then apply the Elo steps in program order: the
first participant's rating is updated from the second's pre-match rating,
after which the second participant's update reads the first participant's
already-mutated rating (the in-place `update_elo` calls of the source).
Finally the finished battle is dropped from `active_matches`. -/
noncomputable def update_battle_result (st : MatchmakerState)
    (battle_result : BattleResult) : MatchmakerState :=
  match lookupStats st.bot_stats battle_result.bot1_username,
        lookupStats st.bot_stats battle_result.bot2_username with
  | some bot1_stats, some bot2_stats =>
    let is_draw := battle_result.winner.isNone
    let bot1_wins := battle_result.winner == some battle_result.bot1_username
    let bot2_wins := battle_result.winner == some battle_result.bot2_username
    let s1 := bot1_stats.update_stats battle_result.timestamp bot1_wins is_draw
    let s2 := bot2_stats.update_stats battle_result.timestamp bot2_wins is_draw
    let pair : BotStats × BotStats :=
      if is_draw then
        let s1e := s1.update_elo s2.elo_rating 0.5 32
        (s1e, s2.update_elo s1e.elo_rating 0.5 32)
      else if bot1_wins then
        let s1e := s1.update_elo s2.elo_rating 1 32
        (s1e, s2.update_elo s1e.elo_rating 0 32)
      else if bot2_wins then
        let s1e := s1.update_elo s2.elo_rating 0 32
        (s1e, s2.update_elo s1e.elo_rating 1 32)
      else (s1, s2)
    let m1 := assocSet st.bot_stats battle_result.bot1_username pair.1
    let m2 := assocSet m1 battle_result.bot2_username pair.2
    { st with
      bot_stats := m2
      active_matches :=
        st.active_matches.filter (fun p => p.1 != battle_result.battle_id) }
  | _, _ => st

/-- Writing a key's entry makes it the value `lookupStats` returns. -/
theorem lookupStats_assocSet_self (m : List (String × BotStats)) (u : String)
    (s : BotStats) : lookupStats (assocSet m u s) u = some s := by
  induction m with
  | nil => simp [lookupStats, assocSet]
  | cons head tail ih =>
    obtain ⟨k, v⟩ := head
    by_cases hk : k = u
    · subst hk
      simp [lookupStats, assocSet]
    · simpa [lookupStats, assocSet, hk] using ih

/-- Writing one key leaves every other key's entry unchanged. -/
theorem lookupStats_assocSet_ne (m : List (String × BotStats)) (u v : String)
    (s : BotStats) (h : v ≠ u) :
    lookupStats (assocSet m u s) v = lookupStats m v := by
  induction m with
  | nil => simp [lookupStats, assocSet, h, Ne.symm h]
  | cons head tail ih =>
    obtain ⟨k, w⟩ := head
    by_cases hk : k = u
    · subst hk
      simp [lookupStats, assocSet, h, Ne.symm h]
    · by_cases hv : k = v
      · subst hv
        simp [lookupStats, assocSet, hk]
      · simpa [lookupStats, assocSet, hk, hv] using ih

/-- C2: the pure Elo update with a shared K-factor is zero-sum on a
decisive result: the winner's gain, computed from the two pre-match
ratings, equals the loser's loss computed from the same pre-match
ratings. -/
theorem elo_update_zero_sum (s1 s2 : BotStats) (k : ℝ) :
    (s1.update_elo s2.elo_rating 1 k).elo_rating - s1.elo_rating
      = -((s2.update_elo s1.elo_rating 0 k).elo_rating - s2.elo_rating) := by
  simp only [BotStats.update_elo]
  have hten : (0:ℝ) ≤ 10 := by norm_num
  have hx : (0:ℝ) < (10:ℝ) ^ ((s2.elo_rating - s1.elo_rating) / 400) :=
    Real.rpow_pos_of_pos (by norm_num) _
  have hxy : (10:ℝ) ^ ((s1.elo_rating - s2.elo_rating) / 400)
      = ((10:ℝ) ^ ((s2.elo_rating - s1.elo_rating) / 400))⁻¹ := by
    rw [← Real.rpow_neg hten]
    ring_nf
  rw [hxy]
  have h1 : (1:ℝ) + (10:ℝ) ^ ((s2.elo_rating - s1.elo_rating) / 400) ≠ 0 := by
    positivity
  have h2 : ((10:ℝ) ^ ((s2.elo_rating - s1.elo_rating) / 400))⁻¹ ≠ 0 := by
    positivity
  field_simp
  ring

/-- C10: when either participant named in the result has no registered
stats record, `update_battle_result` returns the state unchanged (the
early-return branch mutates nothing). -/
theorem update_battle_result_missing_noop (st : MatchmakerState)
    (battle_result : BattleResult)
    (h : lookupStats st.bot_stats battle_result.bot1_username = none ∨
         lookupStats st.bot_stats battle_result.bot2_username = none) :
    update_battle_result st battle_result = st := by
  rcases h with h | h
  · simp [update_battle_result, h]
  · cases hl : lookupStats st.bot_stats battle_result.bot1_username <;>
      simp [update_battle_result, h, hl]

/-- Matchmaker state with an empty stats registry. -/
def emptyState : MatchmakerState := ⟨[], [], [], [], []⟩

/-- Sample decisive battle result between two unregistered bots. -/
def sampleResult : BattleResult :=
  ⟨"battle-1", "alice", "bob", some "alice", "gen9randombattle", 10, 5, none, 100⟩

/-- Witness for C10 at a concrete state and result. -/
theorem update_battle_result_missing_noop_witness :
    update_battle_result emptyState sampleResult = emptyState :=
  update_battle_result_missing_noop emptyState sampleResult (Or.inl rfl)

/-- C9: when the result's winner field is set but names neither
participant, both participants are recorded a loss (losses and total
battles increment, win rate is recomputed from the updated counters) and
neither participant's Elo rating changes (the record updates below leave
`elo_rating` untouched and no Elo branch runs). -/
theorem update_battle_result_unknown_winner (st : MatchmakerState)
    (battle_result : BattleResult) (s1 s2 : BotStats) (w : String)
    (h1 : lookupStats st.bot_stats battle_result.bot1_username = some s1)
    (h2 : lookupStats st.bot_stats battle_result.bot2_username = some s2)
    (hw : battle_result.winner = some w)
    (hw1 : w ≠ battle_result.bot1_username)
    (hw2 : w ≠ battle_result.bot2_username)
    (hne : battle_result.bot1_username ≠ battle_result.bot2_username) :
    lookupStats (update_battle_result st battle_result).bot_stats
        battle_result.bot1_username
      = some { s1 with
          losses := s1.losses + 1
          total_battles := s1.total_battles + 1
          win_rate := (s1.wins : ℚ) / ((s1.total_battles + 1 : ℕ) : ℚ)
          last_battle_time := battle_result.timestamp }
    ∧ lookupStats (update_battle_result st battle_result).bot_stats
        battle_result.bot2_username
      = some { s2 with
          losses := s2.losses + 1
          total_battles := s2.total_battles + 1
          win_rate := (s2.wins : ℚ) / ((s2.total_battles + 1 : ℕ) : ℚ)
          last_battle_time := battle_result.timestamp } := by
  have hb1 : (battle_result.winner == some battle_result.bot1_username) = false := by
    simp [hw, hw1]
  have hb2 : (battle_result.winner == some battle_result.bot2_username) = false := by
    simp [hw, hw2]
  have hdraw : battle_result.winner.isNone = false := by simp [hw]
  constructor
  · rw [update_battle_result]
    rw [h1, h2]
    simp only [hb1, hb2, hdraw, Bool.false_eq_true, if_false]
    rw [lookupStats_assocSet_ne _ _ _ _ hne, lookupStats_assocSet_self]
    simp [BotStats.update_stats]
  · rw [update_battle_result]
    rw [h1, h2]
    simp only [hb1, hb2, hdraw, Bool.false_eq_true, if_false]
    rw [lookupStats_assocSet_self]
    simp [BotStats.update_stats]

/-- Matchmaker state with two freshly registered bots at the default
rating. -/
def twoBotState : MatchmakerState :=
  ⟨[("alice", BotStats.fresh "alice" 1200), ("bob", BotStats.fresh "bob" 1200)],
   [], [], [], []⟩

/-- Battle result whose recorded winner names neither participant. -/
def strayWinnerResult : BattleResult :=
  ⟨"battle-2", "alice", "bob", some "mallory", "gen9randombattle", 3, 7, none, 50⟩

/-- Witness for C9 at a concrete state and result. -/
theorem update_battle_result_unknown_winner_witness :
    lookupStats (update_battle_result twoBotState strayWinnerResult).bot_stats
        strayWinnerResult.bot1_username
      = some { BotStats.fresh "alice" 1200 with
          losses := (BotStats.fresh "alice" 1200).losses + 1
          total_battles := (BotStats.fresh "alice" 1200).total_battles + 1
          win_rate := ((BotStats.fresh "alice" 1200).wins : ℚ) /
            (((BotStats.fresh "alice" 1200).total_battles + 1 : ℕ) : ℚ)
          last_battle_time := strayWinnerResult.timestamp }
    ∧ lookupStats (update_battle_result twoBotState strayWinnerResult).bot_stats
        strayWinnerResult.bot2_username
      = some { BotStats.fresh "bob" 1200 with
          losses := (BotStats.fresh "bob" 1200).losses + 1
          total_battles := (BotStats.fresh "bob" 1200).total_battles + 1
          win_rate := ((BotStats.fresh "bob" 1200).wins : ℚ) /
            (((BotStats.fresh "bob" 1200).total_battles + 1 : ℕ) : ℚ)
          last_battle_time := strayWinnerResult.timestamp } :=
  update_battle_result_unknown_winner twoBotState strayWinnerResult
    (BotStats.fresh "alice" 1200) (BotStats.fresh "bob" 1200) "mallory"
    rfl rfl rfl (by decide) (by decide) (by decide)

/-- Decisive result of the C1 scenario: alice beats bob, both at 1200. -/
def aliceBeatsBob : BattleResult :=
  ⟨"battle-3", "alice", "bob", some "alice", "gen9randombattle", 1, 20, none, 10⟩

/-- C1: on the 1200-vs-1200 scenario with K=32, the code gives the winner
exactly 1216, but the loser's update reads the winner's already-updated
rating (1216, not the pre-match 1200), so the loser ends at
`1200 - 32 / (1 + 10 ^ (1/25))`, strictly above and hence different from
the 1184.0 the specification requires. -/
theorem c1_loser_update_reads_postmatch_rating :
    (lookupStats (update_battle_result twoBotState aliceBeatsBob).bot_stats
        "alice").map BotStats.elo_rating = some 1216
    ∧ (lookupStats (update_battle_result twoBotState aliceBeatsBob).bot_stats
        "bob").map BotStats.elo_rating
      = some (1200 - 32 / (1 + (10:ℝ) ^ ((1:ℝ) / 25)))
    ∧ (1200 - 32 / (1 + (10:ℝ) ^ ((1:ℝ) / 25)) : ℝ) ≠ 1184 := by
  have hzero : (((1200:ℝ) - 1200) / 400) = 0 := by norm_num
  have hwinner : ((1200:ℝ) + 32 * (1 - 1 / (1 + (10:ℝ) ^ (((1200:ℝ) - 1200) / 400))))
      = 1216 := by
    rw [hzero, Real.rpow_zero]
    norm_num
  refine ⟨?_, ?_, ?_⟩
  · show some ((1200:ℝ) + 32 * (1 - 1 / (1 + (10:ℝ) ^ (((1200:ℝ) - 1200) / 400))))
      = some 1216
    rw [hwinner]
  · show some ((1200:ℝ) + 32 *
        (0 - 1 / (1 + (10:ℝ) ^
          ((((1200:ℝ) + 32 * (1 - 1 / (1 + (10:ℝ) ^ (((1200:ℝ) - 1200) / 400))))
            - 1200) / 400))))
      = some (1200 - 32 / (1 + (10:ℝ) ^ ((1:ℝ) / 25)))
    rw [hwinner]
    have hexp : (((1216:ℝ) - 1200) / 400) = (1:ℝ) / 25 := by norm_num
    rw [hexp]
    have hpos : (0:ℝ) < 1 + (10:ℝ) ^ ((1:ℝ) / 25) := by
      have := Real.rpow_pos_of_pos (show (0:ℝ) < 10 by norm_num) ((1:ℝ) / 25)
      linarith
    rw [Option.some_inj]
    field_simp
    ring
  · have hone : (1:ℝ) < (10:ℝ) ^ ((1:ℝ) / 25) := by
      rw [Real.one_lt_rpow_iff_of_pos (by norm_num : (0:ℝ) < 10)]
      left
      constructor <;> norm_num
    have hlt : 32 / (1 + (10:ℝ) ^ ((1:ℝ) / 25)) < 16 := by
      rw [div_lt_iff₀ (by linarith)]
      linarith
    intro hcontra
    have : 32 / (1 + (10:ℝ) ^ ((1:ℝ) / 25)) = 16 := by linarith
    linarith

/-- Matchmaking strategies: enum `MatchmakingStrategy` in
`bot_matchmaker.py`. -/
inductive MatchmakingStrategy where
  | round_robin
  | swiss_system
  | random_pairing
  | elo_based
  | custom
deriving DecidableEq

/-- Method `BotMatchmaker.register_bot`: insert a fresh stats record unless the
username is already registered. -/
def registerBot (st : MatchmakerState) (username : String) (initial_elo : ℝ) :
    MatchmakerState :=
  if st.bot_stats.any (fun p => p.1 == username) then st
  else { st with
    bot_stats := st.bot_stats ++ [(username, BotStats.fresh username initial_elo)] }

/-- Method `BotMatchmaker.add_match_request`: reject when the queue already holds
`max_queue_size = 100` requests, otherwise register the bot and append the
request to the queue, returning success. The deferred
`asyncio.create_task(self._process_match_queue())` scheduled at the end
runs later on the event loop and is not part of this call's synchronous
effect on the state. -/
noncomputable def addMatchRequest (st : MatchmakerState) (request : MatchRequest) :
    MatchmakerState × Bool :=
  if 100 ≤ st.match_queue.length then (st, false)
  else
    let st1 := registerBot st request.bot_username 1200
    ({ st1 with match_queue := st1.match_queue ++ [request] }, true)

/-- Predicate `BotMatchmaker._can_pair_bots`: the checks in source order — mutual
exclusion lists, self-pairing, and both bots active in the bot manager. -/
def canPairBots (active : List String) (request1 request2 : MatchRequest) : Bool :=
  !(request1.excluded_opponents.contains request2.bot_username) &&
  !(request2.excluded_opponents.contains request1.bot_username) &&
  request1.bot_username != request2.bot_username &&
  active.contains request1.bot_username &&
  active.contains request2.bot_username

/-- Python `int()` truncation toward zero on a real value. -/
noncomputable def pyInt (x : ℝ) : ℤ := if 0 ≤ x then ⌊x⌋ else -⌊-x⌋

/-- Whether a candidate's rating distance beats the best found so far
(`elo_diff < best_elo_diff`, with `best_elo_diff` starting at infinity). -/
def bestDiffLt (best : Option (ℕ × MatchRequest × ℝ)) (d : ℝ) : Prop :=
  match best with
  | none => True
  | some (_, _, bd) => d < bd

noncomputable instance (best : Option (ℕ × MatchRequest × ℝ)) (d : ℝ) :
    Decidable (bestDiffLt best d) :=
  match best with
  | none => isTrue trivial
  | some (_, _, bd) => inferInstanceAs (Decidable (d < bd))

/-- Inner scan of `_create_elo_pairings`: walk the remaining requests with
their indices, keeping the closest-rated candidate within the threshold
that passes `_can_pair_bots`. -/
noncomputable def findBestLoop (stats : String → BotStats) (active : List String)
    (threshold : ℝ) (request1 : MatchRequest) :
    ℕ → Option (ℕ × MatchRequest × ℝ) → List MatchRequest →
      Option (ℕ × MatchRequest × ℝ)
  | _, best, [] => best
  | i, best, request2 :: rest =>
    let d := |(stats request1.bot_username).elo_rating -
      (stats request2.bot_username).elo_rating|
    let best1 :=
      if d ≤ threshold ∧ bestDiffLt best d then
        if canPairBots active request1 request2 then some (i, request2, d) else best
      else best
    findBestLoop stats active threshold request1 (i + 1) best1 rest

/-- Pairing loop of `_create_elo_pairings`: repeatedly pop the
lowest-rated request and pair it with the best available candidate; a
request with no candidate is dropped from this cycle's pool. -/
noncomputable def eloPairLoop (stats : String → BotStats) (active : List String)
    (threshold : ℝ) (battle_format : String) :
    List MatchRequest → List MatchPairing
  | [] => []
  | [_] => []
  | request1 :: next :: more =>
    match findBestLoop stats active threshold request1 0 none (next :: more) with
    | some (i, request2, d) =>
      { bot1_username := request1.bot_username
        bot2_username := request2.bot_username
        battle_format := battle_format
        priority := pyInt (1000 - d) } ::
        eloPairLoop stats active threshold battle_format ((next :: more).eraseIdx i)
    | none => eloPairLoop stats active threshold battle_format (next :: more)
termination_by l => l.length
decreasing_by
  · have h2 : ((next :: more).eraseIdx i).length ≤ (next :: more).length := by
      rw [List.length_eraseIdx]
      split <;> omega
    simp only [List.length_cons] at h2 ⊢
    omega
  · simp only [List.length_cons]
    omega

/-- Method `_create_elo_pairings`: sort the requests by current rating
ascending, then run the pairing loop. -/
noncomputable def createEloPairings (stats : String → BotStats) (active : List String)
    (threshold : ℝ) (battle_format : String) (requests : List MatchRequest) :
    List MatchPairing :=
  eloPairLoop stats active threshold battle_format
    (requests.mergeSort (fun a b =>
      decide ((stats a.bot_username).elo_rating ≤ (stats b.bot_username).elo_rating)))

/-- Loop of `_create_random_pairings` on the pop order (the source pops
two requests off the end of the shuffled pool each round and pairs them
only when `_can_pair_bots` accepts; a rejected pair is discarded). -/
def randomPairLoop (active : List String) (battle_format : String) :
    List MatchRequest → List MatchPairing
  | request1 :: request2 :: rest =>
    (if canPairBots active request1 request2 then
      [{ bot1_username := request1.bot_username
         bot2_username := request2.bot_username
         battle_format := battle_format
         priority := 100 }]
     else []) ++ randomPairLoop active battle_format rest
  | _ => []

/-- Method `_create_random_pairings`, parametrised by the already-shuffled pool
(`random.shuffle` is modelled by quantifying over the shuffled order);
`list.pop()` takes from the end, hence the reversal. -/
def createRandomPairings (active : List String) (battle_format : String)
    (shuffled : List MatchRequest) : List MatchPairing :=
  randomPairLoop active battle_format shuffled.reverse

/-- Predicate `BotMatchmaker._have_played_recently`: whether the pair (in either
order) occurs in the last five recorded matches. -/
def playedRecently (match_history : List (String × String)) (bot1 bot2 : String) :
    Bool :=
  let recent := match_history.drop (match_history.length - 5)
  recent.contains (bot1, bot2) || recent.contains (bot2, bot1)

/-- Inner scan of `_create_swiss_pairings`: the first candidate that
passes `_can_pair_bots` and has not played `request1` recently. -/
def findSwissLoop (active : List String) (match_history : List (String × String))
    (request1 : MatchRequest) : ℕ → List MatchRequest → Option (ℕ × MatchRequest)
  | _, [] => none
  | i, request2 :: rest =>
    if canPairBots active request1 request2 &&
        !playedRecently match_history request1.bot_username request2.bot_username then
      some (i, request2)
    else findSwissLoop active match_history request1 (i + 1) rest

/-- Pairing loop of `_create_swiss_pairings`. -/
def swissPairLoop (active : List String) (match_history : List (String × String))
    (battle_format : String) : List MatchRequest → List MatchPairing
  | [] => []
  | [_] => []
  | request1 :: next :: more =>
    match findSwissLoop active match_history request1 0 (next :: more) with
    | some (i, request2) =>
      { bot1_username := request1.bot_username
        bot2_username := request2.bot_username
        battle_format := battle_format
        priority := 200 } ::
        swissPairLoop active match_history battle_format ((next :: more).eraseIdx i)
    | none => swissPairLoop active match_history battle_format (next :: more)
termination_by l => l.length
decreasing_by
  · have h2 : ((next :: more).eraseIdx i).length ≤ (next :: more).length := by
      rw [List.length_eraseIdx]
      split <;> omega
    simp only [List.length_cons] at h2 ⊢
    omega
  · simp only [List.length_cons]
    omega

/-- Descending stable order on the Swiss sort key
`(win_rate, total_battles)` (Python `sort(key=..., reverse=True)`). -/
def swissKeyLe (stats : String → BotStats) (a b : MatchRequest) : Bool :=
  decide ((stats b.bot_username).win_rate < (stats a.bot_username).win_rate ∨
    ((stats b.bot_username).win_rate = (stats a.bot_username).win_rate ∧
      (stats b.bot_username).total_battles ≤ (stats a.bot_username).total_battles))

/-- Method `_create_swiss_pairings`: sort by record descending, then pair each
leader with the first compatible opponent not played recently. -/
def createSwissPairings (stats : String → BotStats) (active : List String)
    (match_history : List (String × String)) (battle_format : String)
    (requests : List MatchRequest) : List MatchPairing :=
  swissPairLoop active match_history battle_format
    (requests.mergeSort (swissKeyLe stats))

/-- Method `BotMatchmaker._create_pairings`: dispatch on the configured strategy;
unknown strategies (round robin, custom) fall back to the Elo-based
pairing. The random strategy's in-place shuffle is modelled by an
explicit `shuffle` parameter. -/
noncomputable def createPairings (strategy : MatchmakingStrategy)
    (stats : String → BotStats) (active : List String)
    (match_history : List (String × String)) (threshold : ℝ)
    (shuffle : List MatchRequest → List MatchRequest)
    (requests : List MatchRequest) (battle_format : String) : List MatchPairing :=
  match strategy with
  | .elo_based => createEloPairings stats active threshold battle_format requests
  | .random_pairing => createRandomPairings active battle_format (shuffle requests)
  | .swiss_system => createSwissPairings stats active match_history battle_format requests
  | _ => createEloPairings stats active threshold battle_format requests

/-- Method `BotMatchmaker._process_match_queue`: drop expired requests, group
the survivors by format in first-appearance order, produce pairings per
format with at least two requests, and remove the matched bots' requests
from the queue. Returns the new queue and the pairings pushed to the
pairing queue. -/
noncomputable def processMatchQueue (strategy : MatchmakingStrategy)
    (stats : String → BotStats) (active : List String)
    (match_history : List (String × String)) (threshold : ℝ)
    (shuffle : List MatchRequest → List MatchRequest) (now : ℚ)
    (queue : List MatchRequest) : List MatchRequest × List MatchPairing :=
  let alive := queue.filter (fun req => now - req.created_time < req.max_wait_time)
  let fmts := alive.foldl
    (fun acc req =>
      if acc.contains req.battle_format then acc else acc ++ [req.battle_format]) []
  let new_pairings := fmts.flatMap (fun f =>
    let group := alive.filter (fun req => req.battle_format == f)
    if group.length < 2 then []
    else createPairings strategy stats active match_history threshold shuffle group f)
  let matched := new_pairings.flatMap (fun p => [p.bot1_username, p.bot2_username])
  (alive.filter (fun req => !(matched.contains req.bot_username)), new_pairings)

/-- Any candidate returned by the Elo best-match scan came from the
scanned list and passed `_can_pair_bots`. -/
theorem findBestLoop_sound (stats : String → BotStats) (active : List String)
    (threshold : ℝ) (request1 : MatchRequest) :
    ∀ (l : List MatchRequest) (i : ℕ) (best : Option (ℕ × MatchRequest × ℝ))
      (j : ℕ) (r2 : MatchRequest) (d : ℝ),
      findBestLoop stats active threshold request1 i best l = some (j, r2, d) →
      (∃ j' d', best = some (j', r2, d')) ∨
        (r2 ∈ l ∧ canPairBots active request1 r2 = true) := by
  intro l
  induction l with
  | nil =>
    intro i best j r2 d h
    simp only [findBestLoop] at h
    exact Or.inl ⟨j, d, h⟩
  | cons head rest ih =>
    intro i best j r2 d h
    simp only [findBestLoop] at h
    rcases ih _ _ _ _ _ h with ⟨j', d', hb⟩ | ⟨hm, hc⟩
    · by_cases h1 : |(stats request1.bot_username).elo_rating -
          (stats head.bot_username).elo_rating| ≤ threshold ∧
          bestDiffLt best (|(stats request1.bot_username).elo_rating -
            (stats head.bot_username).elo_rating|)
      · rw [if_pos h1] at hb
        by_cases h2 : canPairBots active request1 head = true
        · rw [if_pos h2] at hb
          have hhead : head = r2 :=
            congrArg (fun t => t.2.1) (Option.some_inj.mp hb)
          exact Or.inr ⟨hhead ▸ List.mem_cons_self head rest, hhead ▸ h2⟩
        · rw [if_neg h2] at hb
          exact Or.inl ⟨j', d', hb⟩
      · rw [if_neg h1] at hb
        exact Or.inl ⟨j', d', hb⟩
    · exact Or.inr ⟨List.mem_cons_of_mem head hm, hc⟩

/-- The best-match scan started with no candidate yields a list member
that passes `_can_pair_bots`. -/
theorem findBestLoop_none_sound (stats : String → BotStats) (active : List String)
    (threshold : ℝ) (request1 : MatchRequest) (l : List MatchRequest) (j : ℕ)
    (r2 : MatchRequest) (d : ℝ)
    (h : findBestLoop stats active threshold request1 0 none l = some (j, r2, d)) :
    r2 ∈ l ∧ canPairBots active request1 r2 = true := by
  rcases findBestLoop_sound stats active threshold request1 l 0 none j r2 d h with
    ⟨j', d', hb⟩ | hgood
  · exact absurd hb (by simp)
  · exact hgood

/-- Every pairing the Elo pairing loop emits names two requests of its
input pool and those two requests pass `_can_pair_bots`. -/
theorem eloPairLoop_sound (stats : String → BotStats) (active : List String)
    (threshold : ℝ) (battle_format : String) :
    ∀ (n : ℕ) (l : List MatchRequest), l.length ≤ n →
      ∀ p ∈ eloPairLoop stats active threshold battle_format l,
        ∃ r1 ∈ l, ∃ r2 ∈ l, p.bot1_username = r1.bot_username ∧
          p.bot2_username = r2.bot_username ∧
          canPairBots active r1 r2 = true := by
  intro n
  induction n with
  | zero =>
    intro l hl p hp
    rw [List.length_eq_zero.mp (Nat.le_zero.mp hl)] at hp
    simp [eloPairLoop] at hp
  | succ n ih =>
    intro l hl p hp
    cases l with
    | nil => simp [eloPairLoop] at hp
    | cons r1 ltail =>
    cases ltail with
    | nil => simp [eloPairLoop] at hp
    | cons rb rest =>
      rw [eloPairLoop] at hp
      cases hfb : findBestLoop stats active threshold r1 0 none (rb :: rest) with
      | none =>
        rw [hfb] at hp
        have hlen : (rb :: rest).length ≤ n := by
          simp only [List.length_cons] at hl ⊢
          omega
        obtain ⟨q1, hq1, q2, hq2, h1, h2, hc⟩ := ih (rb :: rest) hlen p hp
        exact ⟨q1, List.mem_cons_of_mem r1 hq1, q2, List.mem_cons_of_mem r1 hq2,
          h1, h2, hc⟩
      | some best =>
        obtain ⟨i, r2, d⟩ := best
        rw [hfb] at hp
        rcases List.mem_cons.mp hp with hphead | hptail
        · obtain ⟨hr2mem, hcp⟩ :=
            findBestLoop_none_sound stats active threshold r1 _ _ _ _ hfb
          refine ⟨r1, List.mem_cons_self r1 (rb :: rest), r2,
            List.mem_cons_of_mem r1 hr2mem, ?_, ?_, hcp⟩
          · rw [hphead]
          · rw [hphead]
        · have hlen : ((rb :: rest).eraseIdx i).length ≤ n := by
            have h2 : ((rb :: rest).eraseIdx i).length ≤ (rb :: rest).length := by
              rw [List.length_eraseIdx]
              split <;> omega
            simp only [List.length_cons] at hl h2 ⊢
            omega
          obtain ⟨q1, hq1, q2, hq2, h1, h2, hc⟩ :=
            ih ((rb :: rest).eraseIdx i) hlen p hptail
          exact ⟨q1, List.mem_cons_of_mem r1 (List.eraseIdx_subset _ _ hq1),
            q2, List.mem_cons_of_mem r1 (List.eraseIdx_subset _ _ hq2), h1, h2, hc⟩

/-- Any candidate returned by the Swiss scan came from the scanned list
and passed `_can_pair_bots`. -/
theorem findSwissLoop_sound (active : List String)
    (match_history : List (String × String)) (request1 : MatchRequest) :
    ∀ (l : List MatchRequest) (i j : ℕ) (r2 : MatchRequest),
      findSwissLoop active match_history request1 i l = some (j, r2) →
      r2 ∈ l ∧ canPairBots active request1 r2 = true := by
  intro l
  induction l with
  | nil => intro i j r2 h; simp [findSwissLoop] at h
  | cons head rest ih =>
    intro i j r2 h
    rw [findSwissLoop] at h
    by_cases hc : (canPairBots active request1 head &&
        !playedRecently match_history request1.bot_username head.bot_username) = true
    · rw [if_pos hc] at h
      have hhead : head = r2 := congrArg (fun t => t.2) (Option.some_inj.mp h)
      have hcp : canPairBots active request1 head = true := by
        simp only [Bool.and_eq_true] at hc
        exact hc.1
      exact ⟨hhead ▸ List.mem_cons_self head rest, hhead ▸ hcp⟩
    · rw [if_neg hc] at h
      obtain ⟨hm, hcp⟩ := ih (i + 1) j r2 h
      exact ⟨List.mem_cons_of_mem head hm, hcp⟩

/-- Every pairing the Swiss pairing loop emits names two requests of its
input pool and those two requests pass `_can_pair_bots`. -/
theorem swissPairLoop_sound (active : List String)
    (match_history : List (String × String)) (battle_format : String) :
    ∀ (n : ℕ) (l : List MatchRequest), l.length ≤ n →
      ∀ p ∈ swissPairLoop active match_history battle_format l,
        ∃ r1 ∈ l, ∃ r2 ∈ l, p.bot1_username = r1.bot_username ∧
          p.bot2_username = r2.bot_username ∧
          canPairBots active r1 r2 = true := by
  intro n
  induction n with
  | zero =>
    intro l hl p hp
    rw [List.length_eq_zero.mp (Nat.le_zero.mp hl)] at hp
    simp [swissPairLoop] at hp
  | succ n ih =>
    intro l hl p hp
    cases l with
    | nil => simp [swissPairLoop] at hp
    | cons r1 ltail =>
    cases ltail with
    | nil => simp [swissPairLoop] at hp
    | cons rb rest =>
      rw [swissPairLoop] at hp
      cases hfb : findSwissLoop active match_history r1 0 (rb :: rest) with
      | none =>
        rw [hfb] at hp
        have hlen : (rb :: rest).length ≤ n := by
          simp only [List.length_cons] at hl ⊢
          omega
        obtain ⟨q1, hq1, q2, hq2, h1, h2, hc⟩ := ih (rb :: rest) hlen p hp
        exact ⟨q1, List.mem_cons_of_mem r1 hq1, q2, List.mem_cons_of_mem r1 hq2,
          h1, h2, hc⟩
      | some best =>
        obtain ⟨i, r2⟩ := best
        rw [hfb] at hp
        rcases List.mem_cons.mp hp with hphead | hptail
        · obtain ⟨hr2mem, hcp⟩ := findSwissLoop_sound active match_history r1 _ _ _ _ hfb
          refine ⟨r1, List.mem_cons_self r1 (rb :: rest), r2,
            List.mem_cons_of_mem r1 hr2mem, ?_, ?_, hcp⟩
          · rw [hphead]
          · rw [hphead]
        · have hlen : ((rb :: rest).eraseIdx i).length ≤ n := by
            have h2 : ((rb :: rest).eraseIdx i).length ≤ (rb :: rest).length := by
              rw [List.length_eraseIdx]
              split <;> omega
            simp only [List.length_cons] at hl h2 ⊢
            omega
          obtain ⟨q1, hq1, q2, hq2, h1, h2, hc⟩ :=
            ih ((rb :: rest).eraseIdx i) hlen p hptail
          exact ⟨q1, List.mem_cons_of_mem r1 (List.eraseIdx_subset _ _ hq1),
            q2, List.mem_cons_of_mem r1 (List.eraseIdx_subset _ _ hq2), h1, h2, hc⟩

/-- Every pairing the random pairing loop emits names two requests of its
input pool and those two requests pass `_can_pair_bots`. -/
theorem randomPairLoop_sound (active : List String) (battle_format : String) :
    ∀ (n : ℕ) (l : List MatchRequest), l.length ≤ n →
      ∀ p ∈ randomPairLoop active battle_format l,
        ∃ r1 ∈ l, ∃ r2 ∈ l, p.bot1_username = r1.bot_username ∧
          p.bot2_username = r2.bot_username ∧
          canPairBots active r1 r2 = true := by
  intro n
  induction n with
  | zero =>
    intro l hl p hp
    rw [List.length_eq_zero.mp (Nat.le_zero.mp hl)] at hp
    simp [randomPairLoop] at hp
  | succ n ih =>
    intro l hl p hp
    cases l with
    | nil => simp [randomPairLoop] at hp
    | cons r1 ltail =>
    cases ltail with
    | nil => simp [randomPairLoop] at hp
    | cons rb rest =>
      rw [randomPairLoop] at hp
      rcases List.mem_append.mp hp with hphead | hptail
      · by_cases hc : canPairBots active r1 rb = true
        · rw [if_pos hc] at hphead
          rcases List.mem_singleton.mp hphead with rfl
          exact ⟨r1, List.mem_cons_self r1 (rb :: rest), rb,
            List.mem_cons_of_mem r1 (List.mem_cons_self rb rest), rfl, rfl, hc⟩
        · rw [if_neg hc] at hphead
          simp at hphead
      · have hlen : rest.length ≤ n := by
          simp only [List.length_cons] at hl
          omega
        obtain ⟨q1, hq1, q2, hq2, h1, h2, hc⟩ := ih rest hlen p hptail
        exact ⟨q1, List.mem_cons_of_mem r1 (List.mem_cons_of_mem rb hq1),
          q2, List.mem_cons_of_mem r1 (List.mem_cons_of_mem rb hq2), h1, h2, hc⟩

/-- Unfolding of a successful `_can_pair_bots` check: distinct
participants, no mutual exclusion, both active. -/
theorem canPairBots_spec (active : List String) (r1 r2 : MatchRequest)
    (h : canPairBots active r1 r2 = true) :
    r1.bot_username ≠ r2.bot_username ∧
    r2.bot_username ∉ r1.excluded_opponents ∧
    r1.bot_username ∉ r2.excluded_opponents ∧
    r1.bot_username ∈ active ∧ r2.bot_username ∈ active := by
  simp only [canPairBots, Bool.and_eq_true, Bool.not_eq_true', bne_iff_ne,
    ne_eq] at h
  obtain ⟨⟨⟨⟨hx1, hx2⟩, hne⟩, ha1⟩, ha2⟩ := h
  refine ⟨hne, ?_, ?_, List.elem_iff.mp ha1, List.elem_iff.mp ha2⟩
  · intro hmem
    have hcontra : r1.excluded_opponents.contains r2.bot_username = true :=
      List.elem_iff.mpr hmem
    rw [hcontra] at hx1
    simp at hx1
  · intro hmem
    have hcontra : r2.excluded_opponents.contains r1.bot_username = true :=
      List.elem_iff.mpr hmem
    rw [hcontra] at hx2
    simp at hx2

/-- Every pairing `_create_pairings` emits, under any strategy, names two
requests of its input and those requests pass `_can_pair_bots`. The
`shuffle` parameter stands for `random.shuffle`; any permutation (indeed
any selection) of the input qualifies. -/
theorem createPairings_sound (strategy : MatchmakingStrategy)
    (stats : String → BotStats) (active : List String)
    (match_history : List (String × String)) (threshold : ℝ)
    (shuffle : List MatchRequest → List MatchRequest)
    (hshuffle : ∀ l, shuffle l ⊆ l)
    (requests : List MatchRequest) (battle_format : String) (p : MatchPairing)
    (hp : p ∈ createPairings strategy stats active match_history threshold
      shuffle requests battle_format) :
    ∃ r1 ∈ requests, ∃ r2 ∈ requests, p.bot1_username = r1.bot_username ∧
      p.bot2_username = r2.bot_username ∧ canPairBots active r1 r2 = true := by
  have helo : ∀ (q : MatchPairing),
      q ∈ createEloPairings stats active threshold battle_format requests →
      ∃ r1 ∈ requests, ∃ r2 ∈ requests, q.bot1_username = r1.bot_username ∧
        q.bot2_username = r2.bot_username ∧ canPairBots active r1 r2 = true := by
    intro q hq
    obtain ⟨r1, hr1, r2, hr2, h1, h2, hc⟩ :=
      eloPairLoop_sound stats active threshold battle_format
        (requests.mergeSort (fun a b =>
          decide ((stats a.bot_username).elo_rating ≤
            (stats b.bot_username).elo_rating))).length _ le_rfl q hq
    exact ⟨r1, List.mem_mergeSort.mp hr1, r2, List.mem_mergeSort.mp hr2, h1, h2, hc⟩
  cases strategy with
  | elo_based => exact helo p hp
  | round_robin => exact helo p hp
  | custom => exact helo p hp
  | random_pairing =>
    obtain ⟨r1, hr1, r2, hr2, h1, h2, hc⟩ :=
      randomPairLoop_sound active battle_format
        (shuffle requests).reverse.length _ le_rfl p hp
    exact ⟨r1, hshuffle requests (List.mem_reverse.mp hr1),
      r2, hshuffle requests (List.mem_reverse.mp hr2), h1, h2, hc⟩
  | swiss_system =>
    obtain ⟨r1, hr1, r2, hr2, h1, h2, hc⟩ :=
      swissPairLoop_sound active match_history battle_format
        (requests.mergeSort (swissKeyLe stats)).length _ le_rfl p hp
    exact ⟨r1, List.mem_mergeSort.mp hr1, r2, List.mem_mergeSort.mp hr2, h1, h2, hc⟩

/-- C7: every pairing produced by any pairing strategy satisfies the
shared `_can_pair_bots` predicate: it is backed by two distinct queued
requests, neither of which lists the other's bot among its excluded
opponents. -/
theorem pairings_satisfy_canPair (strategy : MatchmakingStrategy)
    (stats : String → BotStats) (active : List String)
    (match_history : List (String × String)) (threshold : ℝ)
    (shuffle : List MatchRequest → List MatchRequest)
    (hshuffle : ∀ l, shuffle l ⊆ l)
    (requests : List MatchRequest) (battle_format : String) (p : MatchPairing)
    (hp : p ∈ createPairings strategy stats active match_history threshold
      shuffle requests battle_format) :
    ∃ r1 ∈ requests, ∃ r2 ∈ requests, p.bot1_username = r1.bot_username ∧
      p.bot2_username = r2.bot_username ∧ canPairBots active r1 r2 = true ∧
      p.bot1_username ≠ p.bot2_username ∧
      p.bot2_username ∉ r1.excluded_opponents ∧
      p.bot1_username ∉ r2.excluded_opponents := by
  obtain ⟨r1, hr1, r2, hr2, h1, h2, hc⟩ :=
    createPairings_sound strategy stats active match_history threshold
      shuffle hshuffle requests battle_format p hp
  obtain ⟨hne, hx1, hx2, -, -⟩ := canPairBots_spec active r1 r2 hc
  exact ⟨r1, hr1, r2, hr2, h1, h2, hc, by rw [h1, h2]; exact hne,
    h2 ▸ hx1, h1 ▸ hx2⟩

/-- Default stats registry: every bot at the fresh default record. -/
noncomputable def defaultStats : String → BotStats := fun u => BotStats.fresh u 1200

/-- Concrete match request for alice. -/
def reqA : MatchRequest := ⟨"alice", "gen9randombattle", [], [], 300, 0⟩

/-- Concrete match request for bob. -/
def reqB : MatchRequest := ⟨"bob", "gen9randombattle", [], [], 300, 0⟩

/-- The pairing the random strategy makes from `[reqA, reqB]` (it pops
from the end of the pool, so bob is drawn first). -/
def pairingBA : MatchPairing := ⟨"bob", "alice", "gen9randombattle", 100⟩

/-- Witness for C7 at a concrete random-strategy run. -/
theorem pairings_satisfy_canPair_witness :
    ∃ r1 ∈ [reqA, reqB], ∃ r2 ∈ [reqA, reqB],
      pairingBA.bot1_username = r1.bot_username ∧
      pairingBA.bot2_username = r2.bot_username ∧
      canPairBots ["alice", "bob"] r1 r2 = true ∧
      pairingBA.bot1_username ≠ pairingBA.bot2_username ∧
      pairingBA.bot2_username ∉ r1.excluded_opponents ∧
      pairingBA.bot1_username ∉ r2.excluded_opponents :=
  pairings_satisfy_canPair .random_pairing defaultStats ["alice", "bob"] [] 200
    (fun l => l) (fun l => List.Subset.refl l) [reqA, reqB] "gen9randombattle"
    pairingBA (by decide)

/-- C6: every pairing a queue-processing run at time `now` produces is
backed by two queued requests that are not expired at `now` (the expiry
sweep runs before pairing, so a request with
`created_time + max_wait_time < now` can never reach a pairing; runs at
later times re-apply the same sweep, so such a request is never paired
afterwards either). -/
theorem processMatchQueue_no_expired (strategy : MatchmakingStrategy)
    (stats : String → BotStats) (active : List String)
    (match_history : List (String × String)) (threshold : ℝ)
    (shuffle : List MatchRequest → List MatchRequest)
    (hshuffle : ∀ l, shuffle l ⊆ l) (now : ℚ) (queue : List MatchRequest)
    (p : MatchPairing)
    (hp : p ∈ (processMatchQueue strategy stats active match_history threshold
      shuffle now queue).2) :
    ∃ r1 ∈ queue, ∃ r2 ∈ queue, p.bot1_username = r1.bot_username ∧
      p.bot2_username = r2.bot_username ∧
      ¬(r1.created_time + r1.max_wait_time < now) ∧
      ¬(r2.created_time + r2.max_wait_time < now) := by
  simp only [processMatchQueue] at hp
  obtain ⟨f, -, hpf⟩ := List.mem_flatMap.mp hp
  by_cases hlen : (List.filter (fun req => req.battle_format == f)
      (List.filter (fun req => decide (now - req.created_time < req.max_wait_time))
        queue)).length < 2
  · rw [if_pos hlen] at hpf
    simp at hpf
  · rw [if_neg hlen] at hpf
    obtain ⟨r1, hr1, r2, hr2, h1, h2, -⟩ :=
      createPairings_sound strategy stats active match_history threshold
        shuffle hshuffle _ f p hpf
    have halive : ∀ r : MatchRequest,
        r ∈ List.filter (fun req => req.battle_format == f)
          (List.filter (fun req => decide (now - req.created_time < req.max_wait_time))
            queue) →
        r ∈ queue ∧ ¬(r.created_time + r.max_wait_time < now) := by
      intro r hr
      obtain ⟨hr', -⟩ := List.mem_filter.mp hr
      obtain ⟨hq, htime⟩ := List.mem_filter.mp hr'
      have ht : now - r.created_time < r.max_wait_time := of_decide_eq_true htime
      exact ⟨hq, by linarith⟩
    obtain ⟨hq1, ht1⟩ := halive r1 hr1
    obtain ⟨hq2, ht2⟩ := halive r2 hr2
    exact ⟨r1, hq1, r2, hq2, h1, h2, ht1, ht2⟩

/-- Witness for C6 at a concrete queue-processing run. -/
theorem processMatchQueue_no_expired_witness :
    ∃ r1 ∈ [reqA, reqB], ∃ r2 ∈ [reqA, reqB],
      pairingBA.bot1_username = r1.bot_username ∧
      pairingBA.bot2_username = r2.bot_username ∧
      ¬(r1.created_time + r1.max_wait_time < (10:ℚ)) ∧
      ¬(r2.created_time + r2.max_wait_time < (10:ℚ)) :=
  processMatchQueue_no_expired .random_pairing defaultStats ["alice", "bob"]
    [] 200 (fun l => l) (fun l => List.Subset.refl l) 10 [reqA, reqB]
    pairingBA (by
      have hstep : (processMatchQueue .random_pairing defaultStats
          ["alice", "bob"] [] 200 (fun l => l) 10 [reqA, reqB]).2
          = [pairingBA] := by
        norm_num [processMatchQueue, createPairings, createRandomPairings,
          randomPairLoop, canPairBots, reqA, reqB, pairingBA,
          String.ne_of_data_ne]
        decide
      rw [hstep]
      exact List.mem_singleton.mpr rfl)

/-- Registering a bot touches only the stats registry, not the queue. -/
theorem registerBot_match_queue (st : MatchmakerState) (u : String) (e : ℝ) :
    (registerBot st u e).match_queue = st.match_queue := by
  unfold registerBot
  split <;> rfl

/-- C5 counterexample: submitting the identical request twice leaves two
queued requests for the same participant and format — `add_match_request`
performs no duplicate check, so the claimed queue invariant fails. -/
theorem add_match_request_no_dedup :
    ((addMatchRequest (addMatchRequest emptyState reqA).1 reqA).1.match_queue.filter
      (fun q => q.bot_username == "alice" && q.battle_format == "gen9randombattle")).length
      = 2 := rfl

/-- C5 amended: whenever the queue holds fewer than `max_queue_size = 100`
requests, `add_match_request` appends the request unconditionally
(registering its bot as a side effect) and reports success; duplicates
for an already-queued participant and format are therefore accepted. -/
theorem add_match_request_appends (st : MatchmakerState) (request : MatchRequest)
    (h : st.match_queue.length < 100) :
    (addMatchRequest st request).1.match_queue = st.match_queue ++ [request] ∧
    (addMatchRequest st request).2 = true := by
  have hn : ¬(100 ≤ st.match_queue.length) := Nat.not_le.mpr h
  refine ⟨?_, ?_⟩ <;>
    simp [addMatchRequest, hn, registerBot_match_queue]

/-- Witness for the amended C5 at a concrete state and request. -/
theorem add_match_request_appends_witness :
    (addMatchRequest emptyState reqA).1.match_queue
      = emptyState.match_queue ++ [reqA] ∧
    (addMatchRequest emptyState reqA).2 = true :=
  add_match_request_appends emptyState reqA (by decide)

/-- Bot-stats branch of the leaderboard server's `api_update` endpoint
(`leaderboard_server.py`): each incoming record is written into the store
with `BotStats(username=username, **stats_copy)` — an unconditional
assignment that replaces any stored record for that username. -/
def apiUpdateBotStats (store : List (String × BotStats))
    (incoming : List (String × BotStats)) : List (String × BotStats) :=
  incoming.foldl (fun acc entry => assocSet acc entry.1
    { entry.2 with username := entry.1 }) store

/-- Modelled from the spec: the `upsertRating(id, record)` contract of the
Leaderboard Store section — cumulative counts are merged by summation
when the store already has a record for the id, and the record is
inserted directly otherwise. (No function in the source implements this;
it is stated here only to compare the endpoint against it.) -/
def specMergeUpsert (store : List (String × BotStats)) (id : String)
    (incoming : BotStats) : List (String × BotStats) :=
  match lookupStats store id with
  | some existing =>
    assocSet store id
      { existing with
        wins := existing.wins + incoming.wins
        losses := existing.losses + incoming.losses
        draws := existing.draws + incoming.draws
        total_battles := existing.total_battles + incoming.total_battles }
  | none => store ++ [(id, incoming)]

/-- Stored cumulative record for alice before the update. -/
def storedAlice : BotStats := ⟨"alice", 1200, 5, 2, 1, 8, 5 / 8, 0⟩

/-- Incoming partial record for alice reporting one further win. -/
def incomingAlice : BotStats := ⟨"alice", 1250, 1, 0, 0, 1, 1, 7⟩

/-- C3 counterexample: on a store already holding 5 wins for alice and an
incoming record reporting 1 win, the endpoint leaves alice with 1 win —
the blind overwrite — while the spec's summing merge would leave 6. -/
theorem api_update_blind_overwrite :
    (lookupStats (apiUpdateBotStats [("alice", storedAlice)]
        [("alice", incomingAlice)]) "alice").map BotStats.wins = some 1
    ∧ (lookupStats (specMergeUpsert [("alice", storedAlice)] "alice"
        incomingAlice) "alice").map BotStats.wins = some 6 := by
  constructor <;> rfl

/-- C3 amended: for an id in the incoming batch the endpoint stores
exactly the incoming record (with the username field forced to the key),
replacing whatever was stored; every other id's entry is untouched, and
an id with no stored record is inserted. -/
theorem apiUpdateBotStats_replaces (store : List (String × BotStats))
    (u : String) (s : BotStats) :
    lookupStats (apiUpdateBotStats store [(u, s)]) u
      = some { s with username := u }
    ∧ ∀ v, v ≠ u →
        lookupStats (apiUpdateBotStats store [(u, s)]) v = lookupStats store v := by
  constructor
  · simpa [apiUpdateBotStats] using lookupStats_assocSet_self store u _
  · intro v hv
    simpa [apiUpdateBotStats] using lookupStats_assocSet_ne store u v _ hv

/-- Witness for the amended C3 at a concrete store, record and probe id. -/
theorem apiUpdateBotStats_replaces_witness :
    lookupStats (apiUpdateBotStats [("alice", storedAlice)]
        [("alice", incomingAlice)]) "alice"
      = some { incomingAlice with username := "alice" }
    ∧ lookupStats (apiUpdateBotStats [("alice", storedAlice)]
        [("alice", incomingAlice)]) "bob"
      = lookupStats [("alice", storedAlice)] "bob" :=
  ⟨(apiUpdateBotStats_replaces [("alice", storedAlice)] "alice" incomingAlice).1,
    (apiUpdateBotStats_replaces [("alice", storedAlice)] "alice"
      incomingAlice).2 "bob" (by decide)⟩

/-- Battle-results branch of `api_update`: a result is appended to the
battle history only when no stored battle carries its `battle_id`
(`existing_ids = {b.battle_id for b in battle_history}` recomputed before
each append). -/
def recordBattleResult (battle_history : List BattleResult)
    (result : BattleResult) : List BattleResult :=
  if (battle_history.map (fun b => b.battle_id)).contains result.battle_id then
    battle_history
  else battle_history ++ [result]

/-- The whole battle-results loop of `api_update` (the `try/except` that
skips malformed payload entries is not modelled: inputs here are already
well-formed results). -/
def recordBattleResults (battle_history : List BattleResult)
    (incoming : List BattleResult) : List BattleResult :=
  incoming.foldl recordBattleResult battle_history

/-- C4: recording a result whose `battle_id` is already stored appends
nothing, and recording the same result twice leaves exactly the history
of recording it once. -/
theorem recordBattleResult_idempotent (battle_history : List BattleResult)
    (result : BattleResult) :
    ((battle_history.map (fun b => b.battle_id)).contains result.battle_id = true →
      recordBattleResult battle_history result = battle_history)
    ∧ recordBattleResult (recordBattleResult battle_history result) result
      = recordBattleResult battle_history result := by
  constructor
  · intro h
    rw [recordBattleResult, if_pos h]
  · by_cases h : (battle_history.map (fun b => b.battle_id)).contains
        result.battle_id = true
    · have h1 : recordBattleResult battle_history result = battle_history := by
        rw [recordBattleResult, if_pos h]
      rw [h1, h1]
    · have h1 : recordBattleResult battle_history result
          = battle_history ++ [result] := by
        rw [recordBattleResult, if_neg h]
      have hmem : result.battle_id
          ∈ (battle_history ++ [result]).map (fun b => b.battle_id) := by
        rw [List.map_append]
        exact List.mem_append_right _ (by simp)
      have happend : (((battle_history ++ [result]).map
          (fun b => b.battle_id)).contains result.battle_id) = true :=
        List.elem_iff.mpr hmem
      rw [h1, recordBattleResult, if_pos happend]

/-- Witness for C4 at a concrete history and result. -/
theorem recordBattleResult_idempotent_witness :
    (([sampleResult].map (fun b => b.battle_id)).contains
        sampleResult.battle_id = true →
      recordBattleResult [sampleResult] sampleResult = [sampleResult])
    ∧ recordBattleResult (recordBattleResult [sampleResult] sampleResult)
        sampleResult
      = recordBattleResult [sampleResult] sampleResult :=
  recordBattleResult_idempotent [sampleResult] sampleResult

/-- Per-user battle filter of `LeaderboardManager.get_leaderboard`: keep
the battles the user took part in, then (for a specific format filter)
keep only that format. -/
def userBattlesFor (battle_history : List BattleResult) (username : String)
    (battle_format : String) : List BattleResult :=
  let user_battles := battle_history.filter
    (fun b => b.bot1_username == username || b.bot2_username == username)
  if battle_format != "all" then
    user_battles.filter (fun b => b.battle_format == battle_format)
  else user_battles

/-- One step of the streak loop of `get_leaderboard`: a win increments
both `current_streak` and `temp_streak` and refreshes the longest streak;
any non-win zeroes `temp_streak` and zeroes `current_streak` only when it
still equals `temp_streak`. State is `(current, longest, temp)`. -/
def streakStep (username : String) (acc : ℕ × ℕ × ℕ) (b : BattleResult) :
    ℕ × ℕ × ℕ :=
  if b.winner == some username then
    (acc.1 + 1, max acc.2.1 (acc.2.2 + 1), acc.2.2 + 1)
  else
    ((if acc.1 = acc.2.2 then 0 else acc.1), acc.2.1, 0)

/-- The streak loop of `get_leaderboard`, scanning the user's filtered
battles in reverse chronological order from `(0, 0, 0)`. -/
def streakScan (username : String) (battles : List BattleResult) : ℕ × ℕ × ℕ :=
  battles.reverse.foldl (streakStep username) (0, 0, 0)

/-- The `current_streak` value `get_leaderboard` reports. -/
def currentStreakOf (username : String) (battles : List BattleResult) : ℕ :=
  (streakScan username battles).1

/-- Modelled from the spec: the current streak as specified — the number
of consecutive wins ending at the participant's most recent match,
scanned in reverse chronological order (0 as soon as the most recent
relevant match is not a win). -/
def specCurrentStreak (username : String) (battles : List BattleResult) : ℕ :=
  (battles.reverse.takeWhile (fun b => b.winner == some username)).length

/-- The streak loop keeps `current_streak = temp_streak` from any state
where they agree: a win increments both and a non-win zeroes both. The
guard `if current_streak == temp_streak` in the non-win branch is
therefore always taken and `current_streak` ends up as the length of the
win run at the oldest end of the history, not the newest. -/
theorem streakScan_current_eq_temp (username : String) :
    ∀ (l : List BattleResult) (c lg t : ℕ), c = t →
      (l.foldl (streakStep username) (c, lg, t)).1
        = (l.foldl (streakStep username) (c, lg, t)).2.2 := by
  intro l
  induction l with
  | nil => intro c lg t h; simpa using h
  | cons b rest ih =>
    intro c lg t h
    subst h
    by_cases hw : (b.winner == some username) = true
    · simpa [List.foldl_cons, streakStep, hw] using ih (c + 1) _ (c + 1) rfl
    · simpa [List.foldl_cons, streakStep, hw] using ih 0 _ 0 rfl

/-- A battle alice won, recorded first (the older match). -/
def aliceWin : BattleResult :=
  ⟨"battle-10", "alice", "bob", some "alice", "gen9randombattle", 1, 4, none, 1⟩

/-- A battle alice lost, recorded second (the most recent match). -/
def aliceLoss : BattleResult :=
  ⟨"battle-11", "alice", "bob", some "bob", "gen9randombattle", 1, 4, none, 2⟩

/-- C8: with alice's filtered history being a win followed by a loss, the
leaderboard's streak loop reports `current_streak = 1` — the win run at
the oldest end of her history — although her most recent match is a loss,
for which the specification requires 0 (as `specCurrentStreak` yields). -/
theorem current_streak_counts_oldest_run :
    currentStreakOf "alice" (userBattlesFor [aliceWin, aliceLoss] "alice" "all") = 1
    ∧ specCurrentStreak "alice"
        (userBattlesFor [aliceWin, aliceLoss] "alice" "all") = 0 := by
  constructor <;> rfl
